import Mathlib

/-!
Verification of the choria-io provisioning-agent against its specification.

The orchestrator side (package `host`, file with `rpcDo`, `configure`,
`restart`, `fetchJWT`, `fetchInventory`) and the node-agent side
(package `provision`, `configureAction` / `writeConfig`) are shallowly
embedded.  External collaborators (the mcorpc RPC library, the Go
standard library's `encoding/json`, the filesystem) are modelled as
explicit environments: every point at which the external world can
succeed or fail is a field of an environment record, and the embedded
functions reproduce the source's control flow over those fields.
-/

namespace Provisioning

/-- The mcorpc `OK` status code (first value of the StatusCode iota). -/
def OK : Nat := 0

/-- The mcorpc `Aborted` status code (second value of the StatusCode iota). -/
def Aborted : Nat := 1

/-- The mcorpc `InvalidData` status code, set by `ParseRequestData` on a
malformed request. -/
def InvalidData : Nat := 4

/-- One reply arriving on the fabric: its sender identity, its per-reply
status code and its raw data payload. -/
structure Reply where
  sender : String
  statuscode : Nat
  data : String
deriving DecidableEq, Repr

/-- Environment of one `rpcDo` invocation: the pause-gate value
(`h.cfg.Paused()`), whether the DDL cache lookup succeeds, whether
`rpc.New` succeeds, whether `prov.Do` itself returns an error (which
includes a cancelled context), and the list of replies the fabric
delivers to the reply handler, in arrival order. -/
structure RpcEnv where
  paused : Bool
  ddlOk : Bool
  clientOk : Bool
  doErr : Bool
  replies : List Reply
deriving DecidableEq, Repr

/-- The error paths of `rpcDo`. -/
inductive RpcErr where
  | pausedErr : RpcErr
  | ddlMissing : RpcErr
  | clientCreate : RpcErr
  | doFailed : RpcErr
  | badResponseCount : Nat → RpcErr
deriving DecidableEq, Repr

/-- The part of `rpc.Stats` that `rpcDo` exposes: the response count. -/
structure Stats where
  responses : Nat
deriving DecidableEq, Repr

/-- Observable outcome of one `rpcDo` invocation: the returned value,
the replies that reached the caller-supplied callback `cb`, the number
of times the per-label `rpcErrCtr` counter was incremented, and whether
the request was handed to `prov.Do` (published) at all. -/
structure RpcDoResult where
  result : Except RpcErr Stats
  cbReplies : List Reply
  errCtrIncr : Nat
  published : Bool
deriving Repr

/-- Shallow embedding of `(h *Host) rpcDo`.  Control flow, in source
order: pause-gate refusal (no counter increment), DDL cache miss (no
counter increment), client creation failure (one increment), then the
`prov.Do` call.  The reply handler counts every non-OK reply in
`rpcErrCtr` and forwards to `cb` only replies that are OK and whose
sender equals `h.Identity`.  After `Do`, an error from `Do` or a
response count different from 1 is an error (one increment each);
otherwise the stats are returned with no error. -/
def rpcDo (identity : String) (env : RpcEnv) : RpcDoResult :=
  if env.paused then
    { result := .error .pausedErr, cbReplies := [], errCtrIncr := 0, published := false }
  else if !env.ddlOk then
    { result := .error .ddlMissing, cbReplies := [], errCtrIncr := 0, published := false }
  else if !env.clientOk then
    { result := .error .clientCreate, cbReplies := [], errCtrIncr := 1, published := false }
  else
    let handlerErrs := (env.replies.filter (fun r => r.statuscode != OK)).length
    let cbs := env.replies.filter (fun r => r.statuscode == OK && r.sender == identity)
    if env.doErr then
      { result := .error .doFailed, cbReplies := cbs,
        errCtrIncr := handlerErrs + 1, published := true }
    else if env.replies.length != 1 then
      { result := .error (.badResponseCount env.replies.length), cbReplies := cbs,
        errCtrIncr := handlerErrs + 1, published := true }
    else
      { result := .ok { responses := env.replies.length }, cbReplies := cbs,
        errCtrIncr := handlerErrs, published := true }

/-- Whether an `Except` value is an error. -/
def isErr {ε α : Type} : Except ε α → Bool
  | .error _ => true
  | .ok _ => false

/-- Number of responses the invocation actually received: zero when the
request was never handed to `prov.Do`, the delivered reply count
otherwise. -/
def receivedCount (identity : String) (env : RpcEnv) : Nat :=
  if (rpcDo identity env).published then env.replies.length else 0

/-- A concrete `rpcDo` environment: not paused, DDL and client fine,
`Do` succeeds, and exactly one reply arrives from the target identity
but with a non-OK status code. -/
def nonOKEnv : RpcEnv :=
  { paused := false, ddlOk := true, clientOk := true, doErr := false,
    replies := [{ sender := "n1.example.net", statuscode := 1, data := "" }] }

/-- Claim C1 counterexample: an invocation that is not paused, whose
context is not cancelled, and that received exactly one response whose
status code is not OK, yet `rpcDo` returns no error — contradicting the
claim that a non-OK status code makes the call return an error. -/
theorem rpcDo_nonOK_status_no_error :
    nonOKEnv.paused = false ∧ nonOKEnv.doErr = false ∧
    nonOKEnv.replies.length = 1 ∧
    nonOKEnv.replies.all (fun r => r.statuscode != OK) = true ∧
    isErr (rpcDo "n1.example.net" nonOKEnv).result = false := by
  decide

/-- Claim C1 (amended): `rpcDo` returns an error exactly when the pause
gate fires, or the underlying `Do` call fails (which includes a
cancelled context), or the invocation did not receive exactly one
response (counting zero received when the call is refused before
publishing, as on a DDL cache miss or client-creation failure).  A
reply's non-OK status code alone does not cause an error return. -/
theorem rpcDo_error_iff (identity : String) (env : RpcEnv) :
    isErr (rpcDo identity env).result = true ↔
      (env.paused = true ∨ env.doErr = true ∨ receivedCount identity env ≠ 1) := by
  unfold receivedCount rpcDo
  rcases env with ⟨p, d, c, de, rs⟩
  cases p <;> cases d <;> cases c <;> cases de <;>
    simp [isErr] <;>
    rcases eq_or_ne rs.length 1 with h1 | h1 <;> simp [h1, isErr]

/-- Claim C4: when the pause gate reports paused, `rpcDo` refuses with
an error before anything is published, and the per-label rpc error
counter is not incremented on that path. -/
theorem rpcDo_paused_refused (identity : String) (env : RpcEnv)
    (hp : env.paused = true) :
    isErr (rpcDo identity env).result = true ∧
    (rpcDo identity env).published = false ∧
    (rpcDo identity env).errCtrIncr = 0 := by
  simp [rpcDo, hp, isErr]

/-- Witness for claim C4's theorem at a concrete paused environment. -/
theorem rpcDo_paused_refused_witness :
    isErr (rpcDo "n1.example.net" { nonOKEnv with paused := true }).result = true ∧
    (rpcDo "n1.example.net" { nonOKEnv with paused := true }).published = false ∧
    (rpcDo "n1.example.net" { nonOKEnv with paused := true }).errCtrIncr = 0 :=
  rpcDo_paused_refused "n1.example.net" { nonOKEnv with paused := true } rfl

/-- Claim C5: every reply that reaches the caller-supplied callback has
the target identity as its sender; replies from any other sender never
reach the callback. -/
theorem rpcDo_cb_sender_only (identity : String) (env : RpcEnv) :
    (rpcDo identity env).cbReplies.all (fun r => r.sender == identity) = true := by
  unfold rpcDo
  rcases env with ⟨p, d, c, de, rs⟩
  cases p <;> cases d <;> cases c <;> cases de <;>
    simp [List.all_eq_true, List.mem_filter] <;>
    first
    | (intro r hr; exact (Bool.and_elim_right hr.2))
    | (rcases eq_or_ne rs.length 1 with h1 | h1 <;> simp [h1] <;>
        intro r hr <;> exact (Bool.and_elim_right hr.2))

/-- The node's reply to `choria_provision#gencsr` as kept on the host
record (`provision.CSRReply`). -/
structure CSRReply where
  csr : String
  ssldir : String
deriving DecidableEq, Repr

/-- The `host.Host` record: the fields the provisioning steps read and
write.  `config` stands for the Go `map[string]string` as its list of
entries. -/
structure Host where
  Identity : String
  token : String
  ca : String
  cert : String
  config : List (String × String)
  CSR : Option CSRReply
  rawJWT : String
  Metadata : String
deriving DecidableEq, Repr

/-- One lowercase hex digit. -/
def hexDigit (n : Nat) : Char :=
  if n < 10 then Char.ofNat (48 + n) else Char.ofNat (87 + n)

/-- Escape one character the way Go's `encoding/json` encoder does for
valid UTF-8 input with HTML escaping on (the `json.Marshal` default). -/
def jsonEscapeChar (c : Char) : String :=
  if c = '"' then "\\\""
  else if c = '\\' then "\\\\"
  else if c = '\n' then "\\n"
  else if c = '\r' then "\\r"
  else if c = '\t' then "\\t"
  else if c = '<' then "\\u003c"
  else if c = '>' then "\\u003e"
  else if c = '&' then "\\u0026"
  else if c.toNat < 32 then
    "\\u00" ++ String.singleton (hexDigit (c.toNat / 16)) ++
      String.singleton (hexDigit (c.toNat % 16))
  else if c.toNat = 8232 then "\\u2028"
  else if c.toNat = 8233 then "\\u2029"
  else String.singleton c

/-- Escape a whole string for JSON. -/
def jsonEscape (s : String) : String :=
  s.data.foldl (fun acc c => acc ++ jsonEscapeChar c) ""

/-- A JSON string literal. -/
def jsonQuote (s : String) : String :=
  "\"" ++ jsonEscape s ++ "\""

/-- Model of `json.Marshal` on a `map[string]string`: keys sorted (Go
sorts map keys when encoding), each entry a quoted key/value pair. -/
def jsonEncodeMap (m : List (String × String)) : String :=
  "\x7b" ++
    String.intercalate ","
      ((m.mergeSort (fun a b => a.1 ≤ b.1)).map
        (fun kv => jsonQuote kv.1 ++ ":" ++ jsonQuote kv.2)) ++
  "\x7d"

/-- The `provision.ConfigureRequest` payload built by `configure`. -/
structure ConfigureRequest where
  token : String
  ca : String
  certificate : String
  configuration : String
  ssldir : String
deriving DecidableEq, Repr

/-- The `provision.RestartRequest` payload built by `restart`. -/
structure RestartRequest where
  token : String
  splay : Nat
deriving DecidableEq, Repr

/-- An RPC invocation a provisioning step hands to `rpcDo`, with its
agent, action and request payload. -/
inductive ProvCall where
  | configureCall : ConfigureRequest → ProvCall
  | restartCall : RestartRequest → ProvCall
deriving DecidableEq, Repr

/-- The error results a provisioning step can produce. -/
inductive StepErr where
  | emptyConfig : StepErr
  | rpc : RpcErr → StepErr
deriving DecidableEq, Repr

/-- Shallow embedding of `(h *Host) configure`: refuse an empty
configuration map, otherwise build the `ConfigureRequest` (token, ca,
certificate, JSON-encoded configuration; ssldir from the CSR reply if a
CSR is present, the empty zero value otherwise) and hand it to `rpcDo`
once.  Returns the `rpcDo` invocations made and the step's result. -/
def configure (h : Host) (env : RpcEnv) : List ProvCall × Except StepErr Unit :=
  if h.config.length = 0 then ([], .error .emptyConfig)
  else
    let creq : ConfigureRequest :=
      { token := h.token, ca := h.ca, certificate := h.cert,
        configuration := jsonEncodeMap h.config,
        ssldir := match h.CSR with
          | some c => c.ssldir
          | none => "" }
    let r := rpcDo h.Identity env
    ([.configureCall creq],
      match r.result with
      | .error e => .error (.rpc e)
      | .ok _ => .ok ())

/-- Shallow embedding of `(h *Host) restart`: build the
`RestartRequest` with the record's token and splay 1, hand it to
`rpcDo` once, and return its error. -/
def restart (h : Host) (env : RpcEnv) : List ProvCall × Except StepErr Unit :=
  let creq : RestartRequest := { token := h.token, splay := 1 }
  let r := rpcDo h.Identity env
  ([.restartCall creq],
    match r.result with
    | .error e => .error (.rpc e)
    | .ok _ => .ok ())

/-- Claim C2: with a non-empty configuration map, the CONFIGURE step
issues exactly one configure RPC whose request carries the record's
token, ca and certificate, whose configuration field is the JSON
encoding of the record's map, and whose ssldir comes from the CSR reply
when one is present and is empty otherwise. -/
theorem configure_request_shape (h : Host) (env : RpcEnv)
    (hne : h.config ≠ []) :
    (configure h env).1.length = 1 ∧
    (∀ req, (configure h env).1 = [.configureCall req] →
      req.token = h.token ∧ req.ca = h.ca ∧ req.certificate = h.cert ∧
      req.configuration = jsonEncodeMap h.config ∧
      (∀ c, h.CSR = some c → req.ssldir = c.ssldir) ∧
      (h.CSR = none → req.ssldir = "")) := by
  have hlen : h.config.length ≠ 0 := by
    simpa [List.length_eq_zero] using hne
  constructor
  · simp [configure, hlen]
  · intro req hreq
    rw [configure] at hreq
    simp only [if_neg hlen] at hreq
    simp only [List.cons.injEq, and_true] at hreq
    have hinj := ProvCall.configureCall.inj hreq.symm
    subst hinj
    refine ⟨rfl, rfl, rfl, rfl, ?_, ?_⟩
    · intro c hc
      simp [hc]
    · intro hc
      simp [hc]

/-- A concrete host record used in witnesses. -/
def wHost : Host :=
  { Identity := "n1.example.net", token := "toksecret", ca := "CAPEM",
    cert := "CERTPEM", config := [("identity", "n1.final")],
    CSR := some { csr := "CSRPEM", ssldir := "/opt/ssl" },
    rawJWT := "", Metadata := "" }

/-- The configure request `configure` builds for `wHost`. -/
def wcReq : ConfigureRequest :=
  { token := "toksecret", ca := "CAPEM", certificate := "CERTPEM",
    configuration := jsonEncodeMap [("identity", "n1.final")],
    ssldir := "/opt/ssl" }

/-- Witness for claim C2's theorem at a concrete host record. -/
theorem configure_request_shape_witness :
    (configure wHost nonOKEnv).1.length = 1 ∧
    wcReq.token = wHost.token ∧ wcReq.ca = wHost.ca ∧
    wcReq.certificate = wHost.cert ∧
    wcReq.configuration = jsonEncodeMap wHost.config ∧
    wcReq.ssldir = "/opt/ssl" := by
  have h := configure_request_shape wHost nonOKEnv (by decide)
  have h2 := h.2 wcReq rfl
  exact ⟨h.1, h2.1, h2.2.1, h2.2.2.1, h2.2.2.2.1,
    h2.2.2.2.2.1 { csr := "CSRPEM", ssldir := "/opt/ssl" } rfl⟩

/-- Claim C6: the RESTART step always issues exactly one restart RPC
whose request carries the record's token and splay 1, and makes no
second attempt: its result is exactly the single `rpcDo` outcome. -/
theorem restart_request_shape (h : Host) (env : RpcEnv) :
    (restart h env).1 = [.restartCall { token := h.token, splay := 1 }] ∧
    isErr (restart h env).2 = isErr (rpcDo h.Identity env).result := by
  constructor
  · rfl
  · rw [restart]
    cases hr : (rpcDo h.Identity env).result <;> simp [isErr, hr]

/-- Outcome of a retried fetch step. -/
inductive FetchOutcome where
  | ok : FetchOutcome
  | ctxErr : FetchOutcome
  | rpcErr : RpcErr → FetchOutcome
  | emptyJWT : FetchOutcome
deriving DecidableEq, Repr

/-- Result of a fetch step: the host record after the step, the number
of `rpcDo` invocations made, and the step's outcome. -/
structure FetchRes where
  host : Host
  attempts : Nat
  outcome : FetchOutcome
deriving DecidableEq, Repr

/-- The `fetchInventory` reply callback: each invocation overwrites
`h.Metadata` with the raw reply data. -/
def invApplyCb (h : Host) (replies : List Reply) : Host :=
  replies.foldl (fun acc r => { acc with Metadata := r.data }) h

/-- The `fetchJWT` reply callback: each invocation decodes the reply
data as a `JWTReply` (the `decode` argument models `json.Unmarshal`;
`none` is a decode error, skipped) and on success overwrites
`h.rawJWT` with the decoded `jwt` field. -/
def jwtApplyCb (decode : String → Option String) (h : Host)
    (replies : List Reply) : Host :=
  replies.foldl
    (fun acc r =>
      match decode r.data with
      | some j => { acc with rawJWT := j }
      | none => acc)
    h

/-- The retry loop of `fetchInventory`: tries are numbered from 1 as in
the source; `rem` is the number of tries left of the 5.  Each try first
checks the context, then calls `rpcDo`; a success returns immediately,
a failure is retried, and the error of the last try is returned when
the tries are exhausted. -/
def fetchInvLoop (ctxC : Nat → Bool) (envs : Nat → RpcEnv) :
    Nat → Nat → Host → Option RpcErr → FetchRes
  | _, 0, h, lastErr =>
      { host := h, attempts := 0,
        outcome := match lastErr with
          | some e => .rpcErr e
          | none => .ok }
  | t, rem + 1, h, _ =>
      if ctxC t then { host := h, attempts := 0, outcome := .ctxErr }
      else
        let r := rpcDo h.Identity (envs t)
        let h2 := invApplyCb h r.cbReplies
        match r.result with
        | .ok _ => { host := h2, attempts := 1, outcome := .ok }
        | .error e =>
            let rest := fetchInvLoop ctxC envs (t + 1) rem h2 (some e)
            { rest with attempts := rest.attempts + 1 }

/-- Shallow embedding of `(h *Host) fetchInventory`: if metadata is
already held, return success at once with no RPC; otherwise run up to
5 tries.  `ctxC t` models `ctx.Err() != nil` at the start of try `t`,
and `envs t` is the fabric environment of try `t`. -/
def fetchInventory (h : Host) (ctxC : Nat → Bool) (envs : Nat → RpcEnv) : FetchRes :=
  if h.Metadata.length > 0 then { host := h, attempts := 0, outcome := .ok }
  else fetchInvLoop ctxC envs 1 5 h none

/-- The retry loop of `fetchJWT`: like the inventory loop, except that
a successful RPC whose accumulated JWT is still empty returns the
distinct "received an empty JWT" error at once. -/
def fetchJWTLoop (decode : String → Option String) (ctxC : Nat → Bool)
    (envs : Nat → RpcEnv) : Nat → Nat → Host → Option RpcErr → FetchRes
  | _, 0, h, lastErr =>
      { host := h, attempts := 0,
        outcome := match lastErr with
          | some e => .rpcErr e
          | none => .ok }
  | t, rem + 1, h, _ =>
      if ctxC t then { host := h, attempts := 0, outcome := .ctxErr }
      else
        let r := rpcDo h.Identity (envs t)
        let h2 := jwtApplyCb decode h r.cbReplies
        match r.result with
        | .ok _ =>
            if h2.rawJWT.length = 0 then
              { host := h2, attempts := 1, outcome := .emptyJWT }
            else { host := h2, attempts := 1, outcome := .ok }
        | .error e =>
            let rest := fetchJWTLoop decode ctxC envs (t + 1) rem h2 (some e)
            { rest with attempts := rest.attempts + 1 }

/-- Shallow embedding of `(h *Host) fetchJWT`: if a raw JWT is already
held, return success at once with no RPC; otherwise run up to 5
tries. -/
def fetchJWT (h : Host) (decode : String → Option String)
    (ctxC : Nat → Bool) (envs : Nat → RpcEnv) : FetchRes :=
  if h.rawJWT ≠ "" then { host := h, attempts := 0, outcome := .ok }
  else fetchJWTLoop decode ctxC envs 1 5 h none

theorem fetchInvLoop_ctx (ctxC : Nat → Bool) (envs : Nat → RpcEnv)
    (t rem : Nat) (h : Host) (le : Option RpcErr) (hc : ctxC t = true) :
    fetchInvLoop ctxC envs t (rem + 1) h le =
      { host := h, attempts := 0, outcome := .ctxErr } := by
  simp [fetchInvLoop, hc]

theorem fetchInvLoop_ok (ctxC : Nat → Bool) (envs : Nat → RpcEnv)
    (t rem : Nat) (h : Host) (le : Option RpcErr) (s : Stats)
    (hc : ctxC t = false) (hr : (rpcDo h.Identity (envs t)).result = .ok s) :
    fetchInvLoop ctxC envs t (rem + 1) h le =
      { host := invApplyCb h (rpcDo h.Identity (envs t)).cbReplies,
        attempts := 1, outcome := .ok } := by
  simp only [fetchInvLoop, hc, Bool.false_eq_true, if_false, hr]

theorem fetchInvLoop_err (ctxC : Nat → Bool) (envs : Nat → RpcEnv)
    (t rem : Nat) (h : Host) (le : Option RpcErr) (e : RpcErr)
    (hc : ctxC t = false) (hr : (rpcDo h.Identity (envs t)).result = .error e) :
    fetchInvLoop ctxC envs t (rem + 1) h le =
      (let rest := fetchInvLoop ctxC envs (t + 1) rem
        (invApplyCb h (rpcDo h.Identity (envs t)).cbReplies) (some e)
       { rest with attempts := rest.attempts + 1 }) := by
  simp only [fetchInvLoop, hc, Bool.false_eq_true, if_false, hr]

theorem fetchJWTLoop_ctx (decode : String → Option String)
    (ctxC : Nat → Bool) (envs : Nat → RpcEnv)
    (t rem : Nat) (h : Host) (le : Option RpcErr) (hc : ctxC t = true) :
    fetchJWTLoop decode ctxC envs t (rem + 1) h le =
      { host := h, attempts := 0, outcome := .ctxErr } := by
  simp [fetchJWTLoop, hc]

theorem fetchJWTLoop_err (decode : String → Option String)
    (ctxC : Nat → Bool) (envs : Nat → RpcEnv)
    (t rem : Nat) (h : Host) (le : Option RpcErr) (e : RpcErr)
    (hc : ctxC t = false) (hr : (rpcDo h.Identity (envs t)).result = .error e) :
    fetchJWTLoop decode ctxC envs t (rem + 1) h le =
      (let rest := fetchJWTLoop decode ctxC envs (t + 1) rem
        (jwtApplyCb decode h (rpcDo h.Identity (envs t)).cbReplies) (some e)
       { rest with attempts := rest.attempts + 1 }) := by
  simp only [fetchJWTLoop, hc, Bool.false_eq_true, if_false, hr]

theorem invApplyCb_Identity : ∀ (rs : List Reply) (h : Host),
    (invApplyCb h rs).Identity = h.Identity := by
  intro rs
  induction rs with
  | nil => intro h; rfl
  | cons r rs ih => intro h; simpa [invApplyCb, List.foldl] using ih _

theorem jwtApplyCb_Identity (decode : String → Option String) :
    ∀ (rs : List Reply) (h : Host),
    (jwtApplyCb decode h rs).Identity = h.Identity := by
  intro rs
  induction rs with
  | nil => intro h; rfl
  | cons r rs ih =>
      intro h
      cases hd : decode r.data <;>
        simpa [jwtApplyCb, List.foldl, hd] using ih _

theorem string_ne_empty_length_pos (s : String) (h : s ≠ "") : 0 < s.length := by
  rcases s with ⟨l⟩
  cases l with
  | nil => exact absurd rfl h
  | cons a as => simp [String.length]

theorem fetchInvLoop_fail_chain (ident : String) (ctxC : Nat → Bool)
    (envs : Nat → RpcEnv) :
    ∀ (rem t : Nat) (h : Host) (le : Option RpcErr),
      h.Identity = ident →
      (∀ i < rem, ctxC (t + i) = false) →
      (∀ i < rem, isErr (rpcDo ident (envs (t + i))).result = true) →
      (fetchInvLoop ctxC envs t rem h le).attempts = rem ∧
      (∀ r e, rem = r + 1 → (rpcDo ident (envs (t + r))).result = .error e →
        (fetchInvLoop ctxC envs t rem h le).outcome = .rpcErr e) ∧
      (rem = 0 → fetchInvLoop ctxC envs t rem h le =
        { host := h, attempts := 0,
          outcome := match le with | some e => .rpcErr e | none => .ok }) := by
  intro rem
  induction rem with
  | zero =>
      intro t h le _ _ _
      exact ⟨rfl, fun r e hre => by omega, fun _ => rfl⟩
  | succ rem ih =>
      intro t h le hId hctx hfail
      have hc0 : ctxC t = false := by simpa using hctx 0 (Nat.succ_pos rem)
      have hf0 : isErr (rpcDo ident (envs t)).result = true := by
        simpa using hfail 0 (Nat.succ_pos rem)
      cases hres : (rpcDo h.Identity (envs t)).result with
      | ok s =>
          rw [hId] at hres
          rw [hres] at hf0
          exact absurd hf0 (by simp [isErr])
      | error e0 =>
          rw [fetchInvLoop_err ctxC envs t rem h le e0 hc0 hres]
          set h2 := invApplyCb h (rpcDo h.Identity (envs t)).cbReplies with hh2
          have hId2 : h2.Identity = ident := by
            rw [hh2, invApplyCb_Identity, hId]
          have hctx2 : ∀ i < rem, ctxC (t + 1 + i) = false := by
            intro i hi
            have := hctx (i + 1) (by omega)
            simpa [Nat.add_assoc, Nat.add_comm 1 i] using this
          have hfail2 : ∀ i < rem, isErr (rpcDo ident (envs (t + 1 + i))).result = true := by
            intro i hi
            have := hfail (i + 1) (by omega)
            simpa [Nat.add_assoc, Nat.add_comm 1 i] using this
          have hrec := ih (t + 1) h2 (some e0) hId2 hctx2 hfail2
          refine ⟨by simpa using hrec.1, ?_, by omega⟩
          intro r e hre hrerr
          cases rem with
          | zero =>
              have hr0 : r = 0 := by omega
              subst hr0
              have hbase := hrec.2.2 rfl
              rw [hbase]
              rw [hId] at hres
              rw [Nat.add_zero] at hrerr
              rw [hrerr] at hres
              simp only [Except.error.injEq] at hres
              simp [hres]
          | succ rem2 =>
              have hr2 : r = rem2 + 1 := by omega
              subst hr2
              have hshift : t + (rem2 + 1) = t + 1 + rem2 := by omega
              have := hrec.2.1 rem2 e rfl (by rw [← hshift]; exact hrerr)
              simpa using this

theorem fetchInvLoop_first_success (ident : String) (ctxC : Nat → Bool)
    (envs : Nat → RpcEnv) :
    ∀ (k rem t : Nat) (h : Host) (le : Option RpcErr),
      h.Identity = ident → k < rem →
      (∀ i ≤ k, ctxC (t + i) = false) →
      (∀ i < k, isErr (rpcDo ident (envs (t + i))).result = true) →
      isErr (rpcDo ident (envs (t + k))).result = false →
      (fetchInvLoop ctxC envs t rem h le).attempts = k + 1 ∧
      (fetchInvLoop ctxC envs t rem h le).outcome = .ok := by
  intro k
  induction k with
  | zero =>
      intro rem t h le hId hk hctx _ hok
      cases rem with
      | zero => omega
      | succ rem =>
          have hc0 : ctxC t = false := by simpa using hctx 0 (Nat.le_refl 0)
          cases hres : (rpcDo h.Identity (envs t)).result with
          | error e =>
              rw [hId] at hres
              rw [Nat.add_zero] at hok
              rw [hres] at hok
              exact absurd hok (by simp [isErr])
          | ok s =>
              rw [fetchInvLoop_ok ctxC envs t rem h le s hc0 hres]
              exact ⟨rfl, rfl⟩
  | succ k ih =>
      intro rem t h le hId hk hctx hfail hok
      cases rem with
      | zero => omega
      | succ rem =>
          have hc0 : ctxC t = false := by simpa using hctx 0 (by omega)
          have hf0 : isErr (rpcDo ident (envs t)).result = true := by
            simpa using hfail 0 (Nat.succ_pos k)
          cases hres : (rpcDo h.Identity (envs t)).result with
          | ok s =>
              rw [hId] at hres
              rw [hres] at hf0
              exact absurd hf0 (by simp [isErr])
          | error e0 =>
              rw [fetchInvLoop_err ctxC envs t rem h le e0 hc0 hres]
              set h2 := invApplyCb h (rpcDo h.Identity (envs t)).cbReplies with hh2
              have hId2 : h2.Identity = ident := by
                rw [hh2, invApplyCb_Identity, hId]
              have hrec := ih rem (t + 1) h2 (some e0) hId2 (by omega)
                (fun i hi => by
                  have := hctx (i + 1) (by omega)
                  simpa [Nat.add_assoc, Nat.add_comm 1 i] using this)
                (fun i hi => by
                  have := hfail (i + 1) (by omega)
                  simpa [Nat.add_assoc, Nat.add_comm 1 i] using this)
                (by
                  have heq : t + (k + 1) = t + 1 + k := by omega
                  rw [← heq]; exact hok)
              exact ⟨by simpa using hrec.1, by simpa using hrec.2⟩

theorem fetchInvLoop_cancel (ident : String) (ctxC : Nat → Bool)
    (envs : Nat → RpcEnv) :
    ∀ (k rem t : Nat) (h : Host) (le : Option RpcErr),
      h.Identity = ident → k < rem →
      (∀ i < k, ctxC (t + i) = false) →
      (∀ i < k, isErr (rpcDo ident (envs (t + i))).result = true) →
      ctxC (t + k) = true →
      (fetchInvLoop ctxC envs t rem h le).attempts = k ∧
      (fetchInvLoop ctxC envs t rem h le).outcome = .ctxErr := by
  intro k
  induction k with
  | zero =>
      intro rem t h le hId hk _ _ hc
      cases rem with
      | zero => omega
      | succ rem =>
          rw [Nat.add_zero] at hc
          rw [fetchInvLoop_ctx ctxC envs t rem h le hc]
          exact ⟨rfl, rfl⟩
  | succ k ih =>
      intro rem t h le hId hk hctx hfail hc
      cases rem with
      | zero => omega
      | succ rem =>
          have hc0 : ctxC t = false := by simpa using hctx 0 (Nat.succ_pos k)
          have hf0 : isErr (rpcDo ident (envs t)).result = true := by
            simpa using hfail 0 (Nat.succ_pos k)
          cases hres : (rpcDo h.Identity (envs t)).result with
          | ok s =>
              rw [hId] at hres
              rw [hres] at hf0
              exact absurd hf0 (by simp [isErr])
          | error e0 =>
              rw [fetchInvLoop_err ctxC envs t rem h le e0 hc0 hres]
              set h2 := invApplyCb h (rpcDo h.Identity (envs t)).cbReplies with hh2
              have hId2 : h2.Identity = ident := by
                rw [hh2, invApplyCb_Identity, hId]
              have hrec := ih rem (t + 1) h2 (some e0) hId2 (by omega)
                (fun i hi => by
                  have := hctx (i + 1) (by omega)
                  simpa [Nat.add_assoc, Nat.add_comm 1 i] using this)
                (fun i hi => by
                  have := hfail (i + 1) (by omega)
                  simpa [Nat.add_assoc, Nat.add_comm 1 i] using this)
                (by
                  have heq : t + (k + 1) = t + 1 + k := by omega
                  rw [← heq]; exact hc)
              exact ⟨by simpa using hrec.1, by simpa using hrec.2⟩

theorem fetchJWTLoop_cancel (decode : String → Option String) (ident : String)
    (ctxC : Nat → Bool) (envs : Nat → RpcEnv) :
    ∀ (k rem t : Nat) (h : Host) (le : Option RpcErr),
      h.Identity = ident → k < rem →
      (∀ i < k, ctxC (t + i) = false) →
      (∀ i < k, isErr (rpcDo ident (envs (t + i))).result = true) →
      ctxC (t + k) = true →
      (fetchJWTLoop decode ctxC envs t rem h le).attempts = k ∧
      (fetchJWTLoop decode ctxC envs t rem h le).outcome = .ctxErr := by
  intro k
  induction k with
  | zero =>
      intro rem t h le hId hk _ _ hc
      cases rem with
      | zero => omega
      | succ rem =>
          rw [Nat.add_zero] at hc
          rw [fetchJWTLoop_ctx decode ctxC envs t rem h le hc]
          exact ⟨rfl, rfl⟩
  | succ k ih =>
      intro rem t h le hId hk hctx hfail hc
      cases rem with
      | zero => omega
      | succ rem =>
          have hc0 : ctxC t = false := by simpa using hctx 0 (Nat.succ_pos k)
          have hf0 : isErr (rpcDo ident (envs t)).result = true := by
            simpa using hfail 0 (Nat.succ_pos k)
          cases hres : (rpcDo h.Identity (envs t)).result with
          | ok s =>
              rw [hId] at hres
              rw [hres] at hf0
              exact absurd hf0 (by simp [isErr])
          | error e0 =>
              rw [fetchJWTLoop_err decode ctxC envs t rem h le e0 hc0 hres]
              set h2 := jwtApplyCb decode h (rpcDo h.Identity (envs t)).cbReplies with hh2
              have hId2 : h2.Identity = ident := by
                rw [hh2, jwtApplyCb_Identity, hId]
              have hrec := ih rem (t + 1) h2 (some e0) hId2 (by omega)
                (fun i hi => by
                  have := hctx (i + 1) (by omega)
                  simpa [Nat.add_assoc, Nat.add_comm 1 i] using this)
                (fun i hi => by
                  have := hfail (i + 1) (by omega)
                  simpa [Nat.add_assoc, Nat.add_comm 1 i] using this)
                (by
                  have heq : t + (k + 1) = t + 1 + k := by omega
                  rw [← heq]; exact hc)
              exact ⟨by simpa using hrec.1, by simpa using hrec.2⟩

theorem fetchInventory_unfold (h : Host) (ctxC : Nat → Bool)
    (envs : Nat → RpcEnv) (hm : h.Metadata = "") :
    fetchInventory h ctxC envs = fetchInvLoop ctxC envs 1 5 h none := by
  rw [fetchInventory, hm]
  rfl

theorem fetchJWT_unfold (h : Host) (decode : String → Option String)
    (ctxC : Nat → Bool) (envs : Nat → RpcEnv) (hj : h.rawJWT = "") :
    fetchJWT h decode ctxC envs = fetchJWTLoop decode ctxC envs 1 5 h none := by
  rw [fetchJWT, hj]
  rfl

/-- Claim C3: with no metadata held, a never-cancelled context and an
RPC that keeps failing, FETCH_INVENTORY makes exactly 5 attempts and
returns the error of the last one; and if the first success comes on
try `k + 1`, exactly `k + 1` attempts are made and the step returns
success with no further attempts. -/
theorem fetchInventory_retry_policy (h : Host) (ctxC : Nat → Bool)
    (envs : Nat → RpcEnv)
    (hm : h.Metadata = "")
    (hctx : ∀ i < 5, ctxC (1 + i) = false) :
    ((∀ i < 5, isErr (rpcDo h.Identity (envs (1 + i))).result = true) →
      (fetchInventory h ctxC envs).attempts = 5 ∧
      ∀ e, (rpcDo h.Identity (envs 5)).result = .error e →
        (fetchInventory h ctxC envs).outcome = .rpcErr e) ∧
    (∀ k < 5, (∀ i < k, isErr (rpcDo h.Identity (envs (1 + i))).result = true) →
      isErr (rpcDo h.Identity (envs (1 + k))).result = false →
      (fetchInventory h ctxC envs).attempts = k + 1 ∧
      (fetchInventory h ctxC envs).outcome = .ok) := by
  rw [fetchInventory_unfold h ctxC envs hm]
  constructor
  · intro hfail
    have hchain := fetchInvLoop_fail_chain h.Identity ctxC envs 5 1 h none
      rfl hctx hfail
    refine ⟨hchain.1, ?_⟩
    intro e he
    refine hchain.2.1 4 e rfl ?_
    have h14 : 1 + 4 = 5 := by omega
    rw [h14]
    exact he
  · intro k hk hfailb hsucc
    exact fetchInvLoop_first_success h.Identity ctxC envs k 5 1 h none
      rfl hk (fun i hi => hctx i (by omega)) hfailb hsucc

/-- An `rpcDo` environment in which the underlying `Do` call fails. -/
def wFailEnv : RpcEnv :=
  { paused := false, ddlOk := true, clientOk := true, doErr := true,
    replies := [] }

/-- Witness for claim C3's theorem: with every try failing, exactly 5
attempts happen and the last try's error is returned. -/
theorem fetchInventory_retry_policy_witness :
    (fetchInventory wHost (fun _ => false) (fun _ => wFailEnv)).attempts = 5 ∧
    (fetchInventory wHost (fun _ => false) (fun _ => wFailEnv)).outcome =
      .rpcErr .doFailed := by
  have h := fetchInventory_retry_policy wHost (fun _ => false) (fun _ => wFailEnv)
    rfl (fun i _ => rfl)
  have h1 := h.1 (fun i _ => rfl)
  exact ⟨h1.1, h1.2 .doFailed rfl⟩

/-- Claim C7: in both FETCH_INVENTORY and FETCH_JWT, when the context
is cancelled before try `t` begins (and the earlier tries all failed),
the step returns the context's cancellation error immediately with
exactly `t - 1` RPC attempts made — none in the remaining tries. -/
theorem fetch_cancelled_aborts (h : Host) (decode : String → Option String)
    (ctxC : Nat → Bool) (envs envs2 : Nat → RpcEnv) (t : Nat)
    (ht1 : 1 ≤ t) (ht5 : t ≤ 5)
    (hm : h.Metadata = "") (hj : h.rawJWT = "")
    (hbefore : ∀ s < t - 1, ctxC (1 + s) = false ∧
      isErr (rpcDo h.Identity (envs (1 + s))).result = true ∧
      isErr (rpcDo h.Identity (envs2 (1 + s))).result = true)
    (hc : ctxC t = true) :
    (fetchInventory h ctxC envs).attempts = t - 1 ∧
    (fetchInventory h ctxC envs).outcome = .ctxErr ∧
    (fetchJWT h decode ctxC envs2).attempts = t - 1 ∧
    (fetchJWT h decode ctxC envs2).outcome = .ctxErr := by
  rw [fetchInventory_unfold h ctxC envs hm, fetchJWT_unfold h decode ctxC envs2 hj]
  have hct : ctxC (1 + (t - 1)) = true := by
    have heq : 1 + (t - 1) = t := by omega
    rw [heq]
    exact hc
  have hinv := fetchInvLoop_cancel h.Identity ctxC envs (t - 1) 5 1 h none
    rfl (by omega) (fun i hi => (hbefore i hi).1)
    (fun i hi => (hbefore i hi).2.1) hct
  have hjwt := fetchJWTLoop_cancel decode h.Identity ctxC envs2 (t - 1) 5 1 h none
    rfl (by omega) (fun i hi => (hbefore i hi).1)
    (fun i hi => (hbefore i hi).2.2) hct
  exact ⟨hinv.1, hinv.2, hjwt.1, hjwt.2⟩

/-- Witness for claim C7's theorem: cancellation before the first try
means zero RPC attempts and the cancellation outcome, for both steps. -/
theorem fetch_cancelled_aborts_witness :
    (fetchInventory wHost (fun _ => true) (fun _ => wFailEnv)).attempts = 0 ∧
    (fetchInventory wHost (fun _ => true) (fun _ => wFailEnv)).outcome = .ctxErr ∧
    (fetchJWT wHost (fun _ => none) (fun _ => true) (fun _ => wFailEnv)).attempts = 0 ∧
    (fetchJWT wHost (fun _ => none) (fun _ => true) (fun _ => wFailEnv)).outcome = .ctxErr :=
  fetch_cancelled_aborts wHost (fun _ => none) (fun _ => true)
    (fun _ => wFailEnv) (fun _ => wFailEnv) 1
    (Nat.le_refl 1) (by omega) rfl rfl
    (fun s hs => absurd hs (Nat.not_lt_zero s)) rfl

/-- Claim C10: FETCH_INVENTORY and FETCH_JWT are idempotent over a host
record: when metadata (respectively a non-empty raw JWT) is already
held, the step returns success at once with zero RPC attempts and the
record unchanged, so running the step twice equals running it once. -/
theorem fetch_idempotent (h : Host) (decode : String → Option String)
    (ctxC ctxC2 : Nat → Bool) (envs envs2 : Nat → RpcEnv)
    (hm : h.Metadata ≠ "") (hj : h.rawJWT ≠ "") :
    fetchInventory h ctxC envs = { host := h, attempts := 0, outcome := .ok } ∧
    fetchJWT h decode ctxC2 envs2 = { host := h, attempts := 0, outcome := .ok } ∧
    fetchInventory (fetchInventory h ctxC envs).host ctxC envs =
      fetchInventory h ctxC envs ∧
    fetchJWT (fetchJWT h decode ctxC2 envs2).host decode ctxC2 envs2 =
      fetchJWT h decode ctxC2 envs2 := by
  have hpos := string_ne_empty_length_pos _ hm
  have h1 : fetchInventory h ctxC envs = { host := h, attempts := 0, outcome := .ok } := by
    rw [fetchInventory, if_pos hpos]
  have h2 : fetchJWT h decode ctxC2 envs2 = { host := h, attempts := 0, outcome := .ok } := by
    rw [fetchJWT, if_pos hj]
  refine ⟨h1, h2, ?_, ?_⟩
  · rw [h1]
    exact h1
  · rw [h2]
    exact h2

/-- A host record that already holds metadata and a raw JWT. -/
def wHostFull : Host := { wHost with Metadata := "inventorydata", rawJWT := "jwtdata" }

/-- Witness for claim C10's theorem at a record that already holds both
values. -/
theorem fetch_idempotent_witness :
    fetchInventory wHostFull (fun _ => false) (fun _ => wFailEnv) =
      { host := wHostFull, attempts := 0, outcome := .ok } ∧
    fetchJWT wHostFull (fun _ => none) (fun _ => false) (fun _ => wFailEnv) =
      { host := wHostFull, attempts := 0, outcome := .ok } ∧
    fetchInventory (fetchInventory wHostFull (fun _ => false) (fun _ => wFailEnv)).host
        (fun _ => false) (fun _ => wFailEnv) =
      fetchInventory wHostFull (fun _ => false) (fun _ => wFailEnv) ∧
    fetchJWT (fetchJWT wHostFull (fun _ => none) (fun _ => false) (fun _ => wFailEnv)).host
        (fun _ => none) (fun _ => false) (fun _ => wFailEnv) =
      fetchJWT wHostFull (fun _ => none) (fun _ => false) (fun _ => wFailEnv) :=
  fetch_idempotent wHostFull (fun _ => none) (fun _ => false) (fun _ => false)
    (fun _ => wFailEnv) (fun _ => wFailEnv) (by decide) (by decide)

/-- Shallow embedding of the agent's `checkToken`: an empty build-time
provisioning token accepts everything, otherwise the supplied token
must match it. -/
def checkToken (buildToken token : String) : Bool :=
  if buildToken = "" then true else token == buildToken

/-- The error paths of `writeConfig`. -/
inductive WriteErr where
  | symlink : WriteErr
  | tempfile : WriteErr
  | write : WriteErr
  | closeFail : WriteErr
  | parseFail : WriteErr
  | renameFail : WriteErr
deriving DecidableEq, Repr

/-- Environment of one `writeConfig` call, one field per point where
the filesystem or the config re-parse can fail: `os.Stat`,
`filepath.EvalSymlinks`, `ioutil.TempFile`, the header `Fprintf`, the
per-setting `Fprintf` (indexed by the setting's position in iteration
order), `tmpfile.Close`, `config.NewConfig` on the written content
(`parsesOk`), and `os.Rename`.  `header` is the timestamped comment
line the code writes first. -/
structure WriteEnv where
  fileExists : Bool
  symlinkOk : Bool
  tempFileOk : Bool
  headerWriteOk : Bool
  settingWriteOk : Nat → Bool
  closeOk : Bool
  parsesOk : String → Bool
  renameOk : Bool
  header : String

/-- The settings loop of `writeConfig`: writes `k=v` lines in
iteration order, failing when the `i`-th write fails; returns the
accumulated text on success. -/
def writeSettings (ok : Nat → Bool) : List (String × String) → Nat → Option String
  | [], _ => some ""
  | kv :: rest, i =>
      if ok i then
        match writeSettings ok rest (i + 1) with
        | some s => some (kv.1 ++ "=" ++ kv.2 ++ "\n" ++ s)
        | none => none
      else none

/-- The text `k=v` lines for a settings list. -/
def renderSettings : List (String × String) → String
  | [] => ""
  | kv :: rest => kv.1 ++ "=" ++ kv.2 ++ "\n" ++ renderSettings rest

/-- Result of `writeConfig`: the returned value and the content of the
real configuration file after the call. -/
structure WriteResult where
  res : Except WriteErr Nat
  configContent : String
deriving Repr

/-- Shallow embedding of the agent's `writeConfig`.  The whole new
configuration (header plus one `k=v` line per setting) goes to a fresh
temporary file; the file is closed, re-parsed as a configuration, and
only then renamed over the real configuration file.  Any error on the
way returns that error with the real file untouched.  On success the
returned count is the number of settings plus one for the header. -/
def writeConfig (settings : List (String × String)) (env : WriteEnv)
    (orig : String) : WriteResult :=
  if env.fileExists && !env.symlinkOk then
    { res := .error .symlink, configContent := orig }
  else if !env.tempFileOk then
    { res := .error .tempfile, configContent := orig }
  else if !env.headerWriteOk then
    { res := .error .write, configContent := orig }
  else
    match writeSettings env.settingWriteOk settings 0 with
    | none => { res := .error .write, configContent := orig }
    | some body =>
        let content := env.header ++ "\n" ++ body
        if !env.closeOk then
          { res := .error .closeFail, configContent := orig }
        else if !env.parsesOk content then
          { res := .error .parseFail, configContent := orig }
        else if !env.renameOk then
          { res := .error .renameFail, configContent := orig }
        else { res := .ok (settings.length + 1), configContent := content }

theorem writeSettings_complete (ok : Nat → Bool) :
    ∀ (settings : List (String × String)) (i : Nat) (body : String),
      writeSettings ok settings i = some body →
      body = renderSettings settings := by
  intro settings
  induction settings with
  | nil =>
      intro i body hw
      simp [writeSettings] at hw
      simp [renderSettings, ← hw]
  | cons kv rest ih =>
      intro i body hw
      rw [writeSettings] at hw
      by_cases hoki : ok i = true
      · rw [if_pos hoki] at hw
        cases hrec : writeSettings ok rest (i + 1) with
        | none => rw [hrec] at hw; exact absurd hw (by simp)
        | some s =>
            rw [hrec] at hw
            simp only [Option.some.injEq] at hw
            have hs := ih (i + 1) s hrec
            rw [← hw, hs, renderSettings]
      · rw [if_neg hoki] at hw
        exact absurd hw (by simp)

/-- Claim C9: `writeConfig` is atomic and complete — on any error the
original configuration file is unchanged, and on success the real file
holds exactly the header line plus every setting, that content was
successfully re-parsed before the rename, and the returned count is
the number of settings plus one. -/
theorem writeConfig_atomic (settings : List (String × String))
    (env : WriteEnv) (orig : String) :
    (∀ e, (writeConfig settings env orig).res = .error e →
      (writeConfig settings env orig).configContent = orig) ∧
    (∀ n, (writeConfig settings env orig).res = .ok n →
      n = settings.length + 1 ∧
      (writeConfig settings env orig).configContent =
        env.header ++ "\n" ++ renderSettings settings ∧
      env.parsesOk (env.header ++ "\n" ++ renderSettings settings) = true) := by
  rw [writeConfig]
  by_cases h1 : (env.fileExists && !env.symlinkOk) = true
  · rw [if_pos h1]
    exact ⟨fun e _ => rfl, fun n hn => absurd hn (by simp)⟩
  · rw [if_neg h1]
    by_cases h2 : (!env.tempFileOk) = true
    · rw [if_pos h2]
      exact ⟨fun e _ => rfl, fun n hn => absurd hn (by simp)⟩
    · rw [if_neg h2]
      by_cases h3 : (!env.headerWriteOk) = true
      · rw [if_pos h3]
        exact ⟨fun e _ => rfl, fun n hn => absurd hn (by simp)⟩
      · rw [if_neg h3]
        cases hws : writeSettings env.settingWriteOk settings 0 with
        | none =>
            exact ⟨fun e _ => rfl, fun n hn => absurd hn (by simp)⟩
        | some body =>
            have hbody := writeSettings_complete env.settingWriteOk settings 0 body hws
            subst hbody
            dsimp only
            by_cases h4 : (!env.closeOk) = true
            · rw [if_pos h4]
              exact ⟨fun e _ => rfl, fun n hn => absurd hn (by simp)⟩
            · rw [if_neg h4]
              by_cases h5 : (!env.parsesOk (env.header ++ "\n" ++ renderSettings settings)) = true
              · rw [if_pos h5]
                exact ⟨fun e _ => rfl, fun n hn => absurd hn (by simp)⟩
              · rw [if_neg h5]
                by_cases h6 : (!env.renameOk) = true
                · rw [if_pos h6]
                  exact ⟨fun e _ => rfl, fun n hn => absurd hn (by simp)⟩
                · rw [if_neg h6]
                  refine ⟨fun e he => absurd he (by simp), fun n hn => ?_⟩
                  simp only [Except.ok.injEq] at hn
                  refine ⟨hn.symm, rfl, ?_⟩
                  simpa using h5

/-- A `writeConfig` environment in which every step succeeds. -/
def wWriteEnv : WriteEnv :=
  { fileExists := true, symlinkOk := true, tempFileOk := true,
    headerWriteOk := true, settingWriteOk := fun _ => true,
    closeOk := true, parsesOk := fun _ => true, renameOk := true,
    header := "# configuration file writen in request 1 from up=choria (n1)" }

/-- Witness for claim C9's theorem on a one-setting write with every
step succeeding. -/
theorem writeConfig_atomic_witness :
    (2 : Nat) = [("identity", "n1.final")].length + 1 ∧
    (writeConfig [("identity", "n1.final")] wWriteEnv "oldcontent").configContent =
      wWriteEnv.header ++ "\n" ++ renderSettings [("identity", "n1.final")] ∧
    wWriteEnv.parsesOk
      (wWriteEnv.header ++ "\n" ++ renderSettings [("identity", "n1.final")]) = true :=
  (writeConfig_atomic [("identity", "n1.final")] wWriteEnv "oldcontent").2 2 rfl

/-- The agent-side state `configureAction` consults: whether the server
is in provisioning mode, its configuration file path, and the
build-time provisioning token. -/
structure AgentState where
  provisionMode : Bool
  configFile : String
  buildToken : String

/-- Environment of one `configureAction` invocation: whether
`ParseRequestData` accepts the request body; `decode`, modelling
`json.Unmarshal` of the configuration string into a `map[string]string`
(`none` when the string is not a JSON mapping whose values are all
strings); the `writeConfig` environment; and whether the certificate
and CA file writes succeed. -/
structure ConfigureActionEnv where
  parseOk : Bool
  decode : String → Option (List (String × String))
  writeEnv : WriteEnv
  certWriteOk : Bool
  caWriteOk : Bool

/-- Observable outcome of `configureAction`: the reply's status code
and whether its data field was set, the configuration file content
after the call, and whether the certificate and CA files were
written. -/
structure ConfigureActionResult where
  statuscode : Nat
  hasData : Bool
  configContent : String
  certWritten : Bool
  caWritten : Bool
deriving DecidableEq, Repr

/-- The result `abort` produces: an Aborted reply, nothing else
touched beyond the given file content. -/
def abortRes (content : String) : ConfigureActionResult :=
  { statuscode := Aborted, hasData := false, configContent := content,
    certWritten := false, caWritten := false }

/-- Shallow embedding of the agent's `configureAction`, in source
order: provisioning-mode gate, config-file gate, request parse, token
check, the empty-configuration gate, the JSON decode of the
configuration string, `writeConfig`, then the optional certificate and
CA writes, and finally the OK reply with its data set. -/
def configureAction (st : AgentState) (args : ConfigureRequest)
    (env : ConfigureActionEnv) (orig : String) : ConfigureActionResult :=
  if !st.provisionMode then abortRes orig
  else if st.configFile = "" then abortRes orig
  else if !env.parseOk then
    { statuscode := InvalidData, hasData := false, configContent := orig,
      certWritten := false, caWritten := false }
  else if !(checkToken st.buildToken args.token) then abortRes orig
  else if args.configuration.length = 0 then abortRes orig
  else
    match env.decode args.configuration with
    | none => abortRes orig
    | some settings =>
        let w := writeConfig settings env.writeEnv orig
        match w.res with
        | .error _ => abortRes orig
        | .ok _ =>
            if args.certificate != "" && args.ssldir != "" && args.ca != "" then
              if !env.certWriteOk then abortRes w.configContent
              else if !env.caWriteOk then
                { abortRes w.configContent with certWritten := true }
              else
                { statuscode := OK, hasData := true,
                  configContent := w.configContent,
                  certWritten := true, caWritten := true }
            else
              { statuscode := OK, hasData := true,
                configContent := w.configContent,
                certWritten := false, caWritten := false }

/-- Claim C8: when the configure request's configuration string is
empty or does not decode as a JSON mapping of strings to strings, the
action replies with Aborted status and writes neither the node's
configuration file nor any SSL file. -/
theorem configureAction_rejects_bad_config (st : AgentState)
    (args : ConfigureRequest) (env : ConfigureActionEnv) (orig : String)
    (hp : env.parseOk = true)
    (hbad : args.configuration = "" ∨ env.decode args.configuration = none) :
    (configureAction st args env orig).statuscode = Aborted ∧
    (configureAction st args env orig).configContent = orig ∧
    (configureAction st args env orig).certWritten = false ∧
    (configureAction st args env orig).caWritten = false := by
  rw [configureAction]
  by_cases h1 : (!st.provisionMode) = true
  · rw [if_pos h1]
    exact ⟨rfl, rfl, rfl, rfl⟩
  · rw [if_neg h1]
    by_cases h2 : st.configFile = ""
    · rw [if_pos h2]
      exact ⟨rfl, rfl, rfl, rfl⟩
    · rw [if_neg h2]
      rw [hp]
      simp only [Bool.not_true, Bool.false_eq_true, if_false]
      by_cases h3 : (!checkToken st.buildToken args.token) = true
      · rw [if_pos h3]
        exact ⟨rfl, rfl, rfl, rfl⟩
      · rw [if_neg h3]
        rcases hbad with hbad | hbad
        · rw [if_pos (by rw [hbad]; rfl)]
          exact ⟨rfl, rfl, rfl, rfl⟩
        · by_cases h4 : args.configuration.length = 0
          · rw [if_pos h4]
            exact ⟨rfl, rfl, rfl, rfl⟩
          · rw [if_neg h4, hbad]
            exact ⟨rfl, rfl, rfl, rfl⟩

/-- A concrete agent state used in the C8 witness. -/
def wAgentState : AgentState :=
  { provisionMode := true, configFile := "/etc/choria/server.conf",
    buildToken := "" }

/-- A concrete configure-action environment whose JSON decoder rejects
everything (as `json.Unmarshal` does on a non-mapping). -/
def wCfgEnv : ConfigureActionEnv :=
  { parseOk := true, decode := fun _ => none, writeEnv := wWriteEnv,
    certWriteOk := true, caWriteOk := true }

/-- The configure request used in the C8 witness: its configuration
string is not a JSON mapping. -/
def wBadReq : ConfigureRequest :=
  { token := "t", ca := "", certificate := "", configuration := "notjson",
    ssldir := "" }

/-- Witness for claim C8's theorem at a concrete undecodable request. -/
theorem configureAction_rejects_bad_config_witness :
    (configureAction wAgentState wBadReq wCfgEnv "oldcontent").statuscode = Aborted ∧
    (configureAction wAgentState wBadReq wCfgEnv "oldcontent").configContent = "oldcontent" ∧
    (configureAction wAgentState wBadReq wCfgEnv "oldcontent").certWritten = false ∧
    (configureAction wAgentState wBadReq wCfgEnv "oldcontent").caWritten = false :=
  configureAction_rejects_bad_config wAgentState wBadReq wCfgEnv "oldcontent"
    rfl (Or.inr rfl)

end Provisioning
